import Mathlib

/-!
Verification development for the Quran Recitation Analyzer client
(`src/app.jsx`). The client's pure state transitions are embedded as
Lean functions: server-message handlers, the mistake queue and its sync
engine, the correction-playback controller, the training-upload flow,
and the session resource lifecycle. Asynchronous effects (fresh UUIDs,
clock reads, network responses, decode success) are passed in as
explicit parameters; React state setters become explicit state passing.
-/

namespace QuranAnalyzer

/-- Verification status of a mistake record: `'pending' | 'correct' | 'incorrect'`
(app.jsx, `verified` field). -/
inductive VerifyStatus
  | pending
  | correct
  | incorrect
deriving DecidableEq, Repr

/-- The string the code stores for each verification status
(JS passes the status as a string literal). -/
def VerifyStatus.text : VerifyStatus → String
  | .pending => "pending"
  | .correct => "correct"
  | .incorrect => "incorrect"

/-- A durable mistake record as constructed in the `mistake_event` branch of
`ws.current.onmessage` (app.jsx lines 195-205): id, sura/aya labels,
transcription and reference segments, mistake type, timestamp, verification
status, sync flag. -/
structure Mistake where
  id : String
  sura : String
  aya : String
  transcription_segment : String
  reference_segment : String
  mistake_type : String
  timestamp : Nat
  verified : VerifyStatus
  synced : Bool
deriving DecidableEq, Repr

/-- A mistake record with the sync flag stripped, as sent in the sync request
body (app.jsx line 534: `unsynced.map(({ synced, ...rest }) => rest)`). -/
structure MistakePayload where
  id : String
  sura : String
  aya : String
  transcription_segment : String
  reference_segment : String
  mistake_type : String
  timestamp : Nat
  verified : VerifyStatus
deriving DecidableEq, Repr

/-- The `({ synced, ...rest }) => rest` projection of app.jsx line 534:
every field of the record except the sync flag. -/
def stripSynced (m : Mistake) : MistakePayload :=
  { id := m.id, sura := m.sura, aya := m.aya,
    transcription_segment := m.transcription_segment,
    reference_segment := m.reference_segment,
    mistake_type := m.mistake_type,
    timestamp := m.timestamp, verified := m.verified }

/-- Feedback mode: `'highlight' | 'beep' | 'spoken'` (app.jsx line 22). -/
inductive FeedbackMode
  | highlight
  | beep
  | spoken
deriving DecidableEq, Repr

/-- Diff entry tag: `'equal' | 'insertion' | 'deletion' | 'replacement_ref' |
'replacement_trans'` (app.jsx line 183 comment). -/
inductive DiffType
  | equal
  | insertion
  | deletion
  | replacement_ref
  | replacement_trans
deriving DecidableEq, Repr

/-- One entry of a `diff_update` message's `diff` array:
`\x7btype, index, word\x7d` (app.jsx line 183). -/
structure DiffEntry where
  type : DiffType
  index : Nat
  word : String
deriving DecidableEq, Repr

/-- The reactive state the message handlers read and write:
`currentSura`, `currentAya`, `currentVerseWords`, `highlightedWords`,
`statusMessage`, `mistakeQueue`, `feedbackMode` (app.jsx lines 19-26). -/
structure AppState where
  currentSura : String
  currentAya : String
  currentVerseWords : List String
  highlightedWords : List Nat
  statusMessage : String
  mistakeQueue : List Mistake
  feedbackMode : FeedbackMode
deriving DecidableEq, Repr

/-- Helper for `splitVerseWords`: walks the character list accumulating the
current word (reversed); a whitespace character emits the accumulated word
if nonempty. Structural recursion so that concrete inputs evaluate in the
kernel. -/
def splitWordsAux : List Char → List Char → List String
  | [], acc => if acc.isEmpty then [] else [String.mk acc.reverse]
  | c :: cs, acc =>
    if c.isWhitespace then
      (if acc.isEmpty then [] else [String.mk acc.reverse]) ++ splitWordsAux cs []
    else splitWordsAux cs (c :: acc)

/-- `message.ayah_text.split(/\s+/).filter(word => word.length > 0)`
(app.jsx line 178): split the verse text on whitespace runs and discard
empty tokens, i.e. the maximal whitespace-free words in order. -/
def splitVerseWords (t : String) : List String := splitWordsAux t.data []

/-- Fields of a `verse_identified` message (app.jsx lines 172-180,
protocol table in the spec). -/
structure VerseIdentifiedMsg where
  sura_name : String
  ayah_text : String
  ayah_number : Nat
deriving DecidableEq, Repr

/-- The `verse_identified` branch of `ws.current.onmessage`
(app.jsx lines 172-180): set sura and aya, split the verse words, set the
status text, clear the highlights. -/
def handleVerseIdentified (msg : VerseIdentifiedMsg) (s : AppState) : AppState :=
  { s with
    currentSura := msg.sura_name
    currentAya := msg.ayah_text
    currentVerseWords := splitVerseWords msg.ayah_text
    statusMessage := "Reciting: " ++ msg.sura_name ++ " - " ++ toString msg.ayah_number
    highlightedWords := [] }

/-- The `diff_update` branch of `ws.current.onmessage` (app.jsx lines
181-189): highlighted indices are the `index` fields of the diff entries
whose type is `deletion` or `replacement_ref`; nothing else changes. -/
def handleDiffUpdate (diff : List DiffEntry) (s : AppState) : AppState :=
  { s with
    highlightedWords :=
      (diff.filter (fun d =>
        d.type == DiffType.deletion || d.type == DiffType.replacement_ref)).map
        DiffEntry.index }

/-- Fields of a `mistake_event` message (app.jsx lines 190-217, protocol
table in the spec). `correction_audio_base64` is optional; `none` models an
absent field. -/
structure MistakeEventMsg where
  mistake_type : String
  reference_word : String
  transcribed_word : String
  transcribed_segment : String
  reference_segment : String
  correction_audio_base64 : Option String
deriving DecidableEq, Repr

/-- The observable feedback effect of the `mistake_event` branch: nothing,
`playBeep()`, or `playSpokenCorrection` on the decoded payload. -/
inductive FeedbackAction
  | noAction
  | beepAction
  | playCorrection (audio : String)
deriving DecidableEq, Repr

/-- The `newMistake` object built in the `mistake_event` branch (app.jsx
lines 195-205): fresh id, the captured sura/aya, the message's segments and
type, the current clock, status `'pending'`, sync flag `false`. -/
def newMistakeOf (msg : MistakeEventMsg) (freshId : String) (now : Nat)
    (s : AppState) : Mistake :=
  { id := freshId
    sura := s.currentSura
    aya := s.currentAya
    transcription_segment := msg.transcribed_segment
    reference_segment := msg.reference_segment
    mistake_type := msg.mistake_type
    timestamp := now
    verified := VerifyStatus.pending
    synced := false }

/-- The `mistake_event` branch of `ws.current.onmessage` (app.jsx lines
190-217): set the status text, prepend the new record to the queue
(`setMistakeQueue(prev => [newMistake, ...prev])`), and pick the feedback
action from the active mode. In the `'spoken'` arm the JS guard
`message.correction_audio_base64` is truthy only for a present, nonempty
string. -/
def handleMistakeEvent (msg : MistakeEventMsg) (freshId : String) (now : Nat)
    (s : AppState) : AppState × FeedbackAction :=
  let newMistake := newMistakeOf msg freshId now s
  let s1 := { s with
    statusMessage := "Mistake detected! " ++ msg.mistake_type ++ " at word: \"" ++
      msg.reference_word ++ "\" (You said: \"" ++ msg.transcribed_word ++ "\")"
    mistakeQueue := newMistake :: s.mistakeQueue }
  let action :=
    match s.feedbackMode with
    | FeedbackMode.highlight => FeedbackAction.noAction
    | FeedbackMode.beep => FeedbackAction.beepAction
    | FeedbackMode.spoken =>
      match msg.correction_audio_base64 with
      | some audio =>
        if audio.length > 0 then FeedbackAction.playCorrection audio
        else FeedbackAction.noAction
      | none => FeedbackAction.noAction
  (s1, action)

/-- `handleMistakeVerification(id, status)` (app.jsx lines 377-380): map over
the queue, giving the record whose id matches the new verification status and
sync flag `false`; set the status text. -/
def handleMistakeVerification (id : String) (status : VerifyStatus)
    (s : AppState) : AppState :=
  { s with
    mistakeQueue := s.mistakeQueue.map (fun m =>
      if m.id == id then { m with verified := status, synced := false } else m)
    statusMessage := "Mistake marked as " ++ status.text ++ "." }

/-- `mistakeQueue.filter(m => !m.synced)` (app.jsx line 531): the records
still awaiting sync. -/
def unsyncedOf (q : List Mistake) : List Mistake :=
  q.filter (fun m => !m.synced)

/-- The sync request body `\x7b mistakes: ... \x7d` (app.jsx line 534). -/
structure SyncRequest where
  mistakes : List MistakePayload
deriving DecidableEq, Repr

/-- The success-handler queue update of `syncMistakes` (app.jsx lines
542-543): `prev.map(m => syncedIds.has(m.id) ? \x7b ...m, synced: true \x7d : m)`,
applied to whatever the queue holds when the response arrives. -/
def markSubmittedSynced (syncedIds : List String) (q : List Mistake) :
    List Mistake :=
  q.map (fun m =>
    if syncedIds.contains m.id then { m with synced := true } else m)

/-- `syncMistakes` (app.jsx lines 530-548), up to its asynchronous effects:
`q` is the queue captured when the function runs, `responseOk` whether the
fetch resolved with `res.ok`. Returns the request issued (`none` when the
unsynced set is empty and the function returns early) and the id set the
success handler marks synced (`none` when no queue update is performed:
early return, or the failure path that only logs). -/
def syncMistakes (q : List Mistake) (responseOk : Bool) :
    Option SyncRequest × Option (List String) :=
  let unsynced := unsyncedOf q
  if unsynced.isEmpty then (none, none)
  else if responseOk then
    (some { mistakes := unsynced.map stripSynced }, some (unsynced.map Mistake.id))
  else
    (some { mistakes := unsynced.map stripSynced }, none)

/-- State of the correction-playback controller: the
`spokenCorrectionSource` ref (`some id` when a buffer source is held) and
the `isSpokenCorrectionPlaying` flag (app.jsx lines 27, 44). -/
structure PlaybackState where
  currentSource : Option Nat
  isPlaying : Bool
deriving DecidableEq, Repr

/-- The primitive source operations `playSpokenCorrection` performs, in
order: `source.stop()`, `source.disconnect()`, `source.start(0)`
(app.jsx lines 112-134). -/
inductive PlayAction
  | stopSource (id : Nat)
  | disconnectSource (id : Nat)
  | startSource (id : Nat)
deriving DecidableEq, Repr

/-- `playSpokenCorrection(audioData)` (app.jsx lines 108-143): if a payload
is present, first stop, disconnect and null out any currently held source;
then decode — on success create a fresh source, start it and store it as
current; on decode failure clear the playing flag. `audioPresent` models the
`audioData` truthiness guard, `decodeOk` whether `decodeAudioData` resolved,
`newId` the fresh buffer source. Returns the new controller state and the
ordered list of source operations performed. -/
def playSpokenCorrection (audioPresent decodeOk : Bool) (newId : Nat)
    (s : PlaybackState) : PlaybackState × List PlayAction :=
  if !audioPresent then (s, [])
  else
    let stopped : PlaybackState × List PlayAction :=
      match s.currentSource with
      | some old =>
        ({ currentSource := none, isPlaying := false },
         [PlayAction.stopSource old, PlayAction.disconnectSource old])
      | none => (s, [])
    if decodeOk then
      ({ currentSource := some newId, isPlaying := true },
       stopped.2 ++ [PlayAction.startSource newId])
    else
      ({ stopped.1 with isPlaying := false }, stopped.2)

/-- Replay one source operation over the multiset (list) of
started-but-not-stopped sources: `start` adds the source,
`stop` removes it, `disconnect` does not change liveness. -/
def applyPlayAction (active : List Nat) : PlayAction → List Nat
  | PlayAction.stopSource id => active.filter (fun a => a != id)
  | PlayAction.disconnectSource _ => active
  | PlayAction.startSource id => id :: active

/-- Replay a sequence of source operations over the set of live sources. -/
def runPlayActions (active : List Nat) (acts : List PlayAction) : List Nat :=
  acts.foldl applyPlayAction active

/-- The session's capture-side resources: microphone stream tracks
(`audioStream`), the `MediaRecorder` state, the WebSocket channel, the
500ms flush interval started inside `startListening`, the
`requestAnimationFrame` voice-activity poll, the silence timeout, the
spoken-correction source, and the `isListening` flag
(app.jsx lines 19, 39-47). -/
structure SessionResources where
  micStreamHeld : Bool
  recorderActive : Bool
  channelOpen : Bool
  flushIntervalActive : Bool
  animFramePollActive : Bool
  silenceTimeoutPending : Bool
  playbackSourceActive : Bool
  isListening : Bool
deriving DecidableEq, Repr

/-- All resources released, not listening. -/
def idleResources : SessionResources :=
  { micStreamHeld := false, recorderActive := false, channelOpen := false,
    flushIntervalActive := false, animFramePollActive := false,
    silenceTimeoutPending := false, playbackSourceActive := false,
    isListening := false }

/-- `startListening` (app.jsx lines 244-325), resource view. On the success
path it acquires the microphone stream, starts the recorder and the
animation-frame poll, sets `isListening` (whose `useEffect` at lines 146-157
opens the WebSocket channel), and starts the 500ms flush interval at line
305. On `getUserMedia` failure nothing is acquired and `isListening` stays
false. The `clearInterval` cleanup closure returned at line 318 is the
return value of an async function invoked as a click handler, so it is
discarded and never runs. -/
def startListening (micGranted : Bool) (s : SessionResources) :
    SessionResources :=
  if s.isListening then s
  else if micGranted then
    { s with micStreamHeld := true, recorderActive := true,
             animFramePollActive := true, isListening := true,
             flushIntervalActive := true, channelOpen := true }
  else { s with isListening := false }

/-- `stopListening` (app.jsx lines 328-365): stops the recorder, stops the
stream tracks, closes the channel, cancels the animation frame, clears the
silence timeout, resets `isListening` and stops any playback source. It
never clears the 500ms flush interval: that interval id is local to
`startListening` and the cleanup closure holding it is discarded, so
`flushIntervalActive` is left unchanged here. -/
def stopListening (s : SessionResources) : SessionResources :=
  if !s.isListening then s
  else
    { s with recorderActive := false, micStreamHeld := false,
             channelOpen := false, animFramePollActive := false,
             silenceTimeoutPending := false, isListening := false,
             playbackSourceActive := false }

/-- A selected audio file: name, size, media type (the fields app.jsx reads
from the `File` object). -/
structure AudioFile where
  name : String
  size : Nat
  type : String
deriving DecidableEq, Repr

/-- A durable training-upload audit record as built at app.jsx lines
421-428: id, filename, upload kind, timestamp, size, media type. -/
structure TrainingUploadRecord where
  id : String
  fileName : String
  type : String
  timestamp : Nat
  fileSize : Nat
  fileType : String
deriving DecidableEq, Repr

/-- State touched by the training-upload flow: the selected file
(`recordedAudioFile`), the durable upload log (`qra_training_uploads` in
localStorage, newest-first), and the status text. -/
structure UploadState where
  recordedAudioFile : Option AudioFile
  trainingUploads : List TrainingUploadRecord
  statusMessage : String
deriving DecidableEq, Repr

/-- `handleAudioFileUpload(event)` (app.jsx lines 383-392): a present file
whose media type starts with `audio/` is stored as the selection; any other
file, or no file, clears the selection to null and shows an error status. -/
def handleAudioFileUpload (file : Option AudioFile) (s : UploadState) :
    UploadState :=
  match file with
  | some f =>
    if f.type.startsWith "audio/" then
      { s with recordedAudioFile := some f,
               statusMessage := "Audio file '" ++ f.name ++ "' selected for training." }
    else
      { s with recordedAudioFile := none,
               statusMessage := "Please select a valid audio file (.mp3, .wav, etc.)." }
  | none =>
    { s with recordedAudioFile := none,
             statusMessage := "Please select a valid audio file (.mp3, .wav, etc.)." }

/-- `uploadInitialTrainingAudio` (app.jsx lines 395-438), up to its network
effect: with no selection, only the status text changes. Otherwise
`responseOk` models `response.ok`; a non-ok response throws into the catch
block, which only sets the failure status — the upload log and the selection
are untouched. On success a record is prepended (`existing.unshift(record)`)
to the upload log and the selection is cleared. -/
def uploadInitialTrainingAudio (responseOk : Bool) (freshId : String)
    (now : Nat) (s : UploadState) : UploadState :=
  match s.recordedAudioFile with
  | none => { s with statusMessage := "No audio file selected to upload for training." }
  | some f =>
    if responseOk then
      let record : TrainingUploadRecord :=
        { id := freshId, fileName := f.name, type := "initial_recitation_upload",
          timestamp := now, fileSize := f.size, fileType := f.type }
      { s with trainingUploads := record :: s.trainingUploads,
               recordedAudioFile := none,
               statusMessage := "File '" ++ f.name ++ "' uploaded successfully for initial training." }
    else
      { s with statusMessage := "Failed to upload initial training audio." }

/-- The queue update `syncMistakes` performs when its response is handled:
nothing when no update was scheduled, otherwise the success handler's map
over the response-time queue. -/
def applySyncUpdate : Option (List String) → List Mistake → List Mistake
  | none, q => q
  | some ids, q => markSubmittedSynced ids q

/-- A sample unsynced mistake record, for concrete evaluations. -/
def sampleMistake : Mistake :=
  { id := "A", sura := "Al-Fatiha", aya := "بسم الله",
    transcription_segment := "بسم", reference_segment := "بسم",
    mistake_type := "word_substitution", timestamp := 100,
    verified := VerifyStatus.pending, synced := false }

/-- A sample app state holding one unsynced pending mistake. -/
def sampleAppState : AppState :=
  { currentSura := "Al-Fatiha", currentAya := "بسم الله",
    currentVerseWords := ["بسم", "الله"], highlightedWords := [],
    statusMessage := "", mistakeQueue := [sampleMistake],
    feedbackMode := FeedbackMode.highlight }

/-- A sample `mistake_event` message, for concrete evaluations. -/
def sampleMistakeMsg : MistakeEventMsg :=
  { mistake_type := "word_substitution", reference_word := "الله",
    transcribed_word := "اله", transcribed_segment := "بسم اله",
    reference_segment := "بسم الله", correction_audio_base64 := none }

/-- A sample selected audio file, for concrete evaluations. -/
def sampleAudioFile : AudioFile :=
  { name := "ruku1.mp3", size := 2048, type := "audio/mpeg" }

/-- A sample training-upload state with a file selected and an empty log. -/
def sampleUploadState : UploadState :=
  { recordedAudioFile := some sampleAudioFile, trainingUploads := [],
    statusMessage := "" }

/-! ## Theorems -/

/-- Folding any sequence of `diff_update` events over the state never touches
the verse context (sura, aya, word list). -/
theorem foldl_diffUpdate_context (l : List (List DiffEntry)) (s : AppState) :
    ((l.foldl (fun st d => handleDiffUpdate d st) s).currentSura = s.currentSura) ∧
    ((l.foldl (fun st d => handleDiffUpdate d st) s).currentAya = s.currentAya) ∧
    ((l.foldl (fun st d => handleDiffUpdate d st) s).currentVerseWords
      = s.currentVerseWords) := by
  induction l generalizing s with
  | nil => exact ⟨rfl, rfl, rfl⟩
  | cons d ds ih => exact ih (handleDiffUpdate d s)

/-- C3: after processing a sequence of `diff_update` events, the
highlighted-index set equals exactly the set of `index` fields of the last
event's entries whose type is `deletion` or `replacement_ref`, and the verse
context (sura, aya, word list) is unchanged. -/
theorem diffUpdate_latest_event_wins (s : AppState)
    (pre : List (List DiffEntry)) (dlast : List DiffEntry) :
    (∀ i : Nat,
        i ∈ ((pre ++ [dlast]).foldl (fun st d => handleDiffUpdate d st)
              s).highlightedWords ↔
          ∃ d ∈ dlast,
            (d.type = DiffType.deletion ∨ d.type = DiffType.replacement_ref) ∧
            d.index = i) ∧
    ((pre ++ [dlast]).foldl (fun st d => handleDiffUpdate d st) s).currentSura
      = s.currentSura ∧
    ((pre ++ [dlast]).foldl (fun st d => handleDiffUpdate d st) s).currentAya
      = s.currentAya ∧
    ((pre ++ [dlast]).foldl (fun st d => handleDiffUpdate d st)
        s).currentVerseWords = s.currentVerseWords := by
  have hfold : (pre ++ [dlast]).foldl (fun st d => handleDiffUpdate d st) s =
      handleDiffUpdate dlast (pre.foldl (fun st d => handleDiffUpdate d st) s) := by
    simp [List.foldl_append]
  rw [hfold]
  refine ⟨fun i => ?_, (foldl_diffUpdate_context pre s).1,
    (foldl_diffUpdate_context pre s).2.1, (foldl_diffUpdate_context pre s).2.2⟩
  simp only [handleDiffUpdate, List.mem_map, List.mem_filter, Bool.or_eq_true,
    beq_iff_eq]
  constructor
  · rintro ⟨d, ⟨hd, ht⟩, hi⟩
    exact ⟨d, hd, ht, hi⟩
  · rintro ⟨d, hd, ht, hi⟩
    exact ⟨d, ⟨hd, ht⟩, hi⟩

/-- C4: a `verse_identified` event replaces the word list with the
whitespace-split, empty-token-free tokens of `ayah_text`, resets the
highlighted-index set to empty, and stores the sura and aya; on the text
"بسم الله" the split yields exactly ["بسم", "الله"]. -/
theorem verseIdentified_splits_and_clears (msg : VerseIdentifiedMsg)
    (s : AppState) :
    (handleVerseIdentified msg s).currentVerseWords
      = splitVerseWords msg.ayah_text ∧
    (handleVerseIdentified msg s).highlightedWords = [] ∧
    (handleVerseIdentified msg s).currentSura = msg.sura_name ∧
    (handleVerseIdentified msg s).currentAya = msg.ayah_text ∧
    (handleVerseIdentified msg s).mistakeQueue = s.mistakeQueue ∧
    splitVerseWords "بسم الله" = ["بسم", "الله"] :=
  ⟨rfl, rfl, rfl, rfl, rfl, by decide⟩

/-- C8: verifying mistake `id0` with a status maps the queue pointwise:
the queue length (hence order) is preserved; at every position the record
whose id matches gets exactly `verified := status, synced := false` with all
other fields preserved, and every other record is returned unchanged. -/
theorem mistakeVerification_updates_only_target (s : AppState) (id0 : String)
    (status : VerifyStatus) :
    ((handleMistakeVerification id0 status s).mistakeQueue.length
      = s.mistakeQueue.length) ∧
    (∀ i : Nat, ∀ m : Mistake, s.mistakeQueue[i]? = some m →
      ((m.id = id0 → (handleMistakeVerification id0 status s).mistakeQueue[i]?
          = some { m with verified := status, synced := false }) ∧
       (m.id ≠ id0 → (handleMistakeVerification id0 status s).mistakeQueue[i]?
          = some m))) ∧
    (∀ m : Mistake,
      ({ m with verified := status, synced := false } : Mistake).id = m.id ∧
      ({ m with verified := status, synced := false } : Mistake).sura = m.sura ∧
      ({ m with verified := status, synced := false } : Mistake).aya = m.aya ∧
      ({ m with verified := status, synced := false } :
          Mistake).transcription_segment = m.transcription_segment ∧
      ({ m with verified := status, synced := false } :
          Mistake).reference_segment = m.reference_segment ∧
      ({ m with verified := status, synced := false } : Mistake).mistake_type
        = m.mistake_type ∧
      ({ m with verified := status, synced := false } : Mistake).timestamp
        = m.timestamp) := by
  refine ⟨by simp [handleMistakeVerification], fun i m hm => ⟨?_, ?_⟩,
    fun m => ⟨rfl, rfl, rfl, rfl, rfl, rfl, rfl⟩⟩
  · intro hid
    simp [handleMistakeVerification, List.getElem?_map, hm, hid]
  · intro hid
    simp [handleMistakeVerification, List.getElem?_map, hm, hid]

/-- C10: a selected file is stored for upload iff it is present and its
media type starts with `audio/`; any other selection (wrong type or no
file) clears the stored selection to null and shows the error status. -/
theorem audioFileUpload_accepts_iff_audio (s : UploadState)
    (file : Option AudioFile) :
    (∀ f : AudioFile, file = some f →
      (((handleAudioFileUpload file s).recordedAudioFile = some f) ↔
        f.type.startsWith "audio/" = true)) ∧
    (∀ f : AudioFile, file = some f → f.type.startsWith "audio/" = true →
      (handleAudioFileUpload file s).statusMessage
        = "Audio file '" ++ f.name ++ "' selected for training.") ∧
    (∀ f : AudioFile, file = some f → f.type.startsWith "audio/" = false →
      (handleAudioFileUpload file s).recordedAudioFile = none ∧
      (handleAudioFileUpload file s).statusMessage
        = "Please select a valid audio file (.mp3, .wav, etc.).") ∧
    (file = none →
      (handleAudioFileUpload file s).recordedAudioFile = none ∧
      (handleAudioFileUpload file s).statusMessage
        = "Please select a valid audio file (.mp3, .wav, etc.).") := by
  refine ⟨fun f hf => ?_, fun f hf hs => ?_, fun f hf hs => ?_, fun hf => ?_⟩
  · subst hf
    constructor
    · intro hstore
      by_contra hns
      simp [handleAudioFileUpload, hns] at hstore
    · intro hs
      simp [handleAudioFileUpload, hs]
  · subst hf; simp [handleAudioFileUpload, hs]
  · subst hf; simp [handleAudioFileUpload, hs]
  · subst hf; exact ⟨rfl, rfl⟩

/-- C5: a `mistake_event` prepends a new record built with status `pending`
and sync flag `false` (keeping ids unique when the generated id is fresh, and
the queue newest-first), and the feedback action is: nothing for
`highlight`, a beep for `beep`, and decode-and-play exactly when the mode is
`spoken` and a nonempty correction audio payload is present. -/
theorem mistakeEvent_prepends_pending_and_feedback (s : AppState)
    (msg : MistakeEventMsg) (freshId : String) (now : Nat)
    (hfresh : ∀ m ∈ s.mistakeQueue, m.id ≠ freshId) :
    ((handleMistakeEvent msg freshId now s).1.mistakeQueue
       = newMistakeOf msg freshId now s :: s.mistakeQueue) ∧
    (newMistakeOf msg freshId now s).verified = VerifyStatus.pending ∧
    (newMistakeOf msg freshId now s).synced = false ∧
    (newMistakeOf msg freshId now s).id = freshId ∧
    ((s.mistakeQueue.map Mistake.id).Nodup →
      ((handleMistakeEvent msg freshId now s).1.mistakeQueue.map
        Mistake.id).Nodup) ∧
    (s.feedbackMode = FeedbackMode.highlight →
      (handleMistakeEvent msg freshId now s).2 = FeedbackAction.noAction) ∧
    (s.feedbackMode = FeedbackMode.beep →
      (handleMistakeEvent msg freshId now s).2 = FeedbackAction.beepAction) ∧
    (∀ audio : String, s.feedbackMode = FeedbackMode.spoken →
      msg.correction_audio_base64 = some audio → audio.length > 0 →
      (handleMistakeEvent msg freshId now s).2
        = FeedbackAction.playCorrection audio) ∧
    (∀ audio : String,
      (handleMistakeEvent msg freshId now s).2
          = FeedbackAction.playCorrection audio →
      s.feedbackMode = FeedbackMode.spoken ∧
        msg.correction_audio_base64 = some audio) := by
  refine ⟨rfl, rfl, rfl, rfl, ?_, ?_, ?_, ?_, ?_⟩
  · intro hnd
    have : (handleMistakeEvent msg freshId now s).1.mistakeQueue.map Mistake.id
        = freshId :: s.mistakeQueue.map Mistake.id := rfl
    rw [this, List.nodup_cons]
    refine ⟨?_, hnd⟩
    simp only [List.mem_map, not_exists, not_and]
    intro m hm hid
    exact hfresh m hm hid
  · intro h; simp [handleMistakeEvent, h]
  · intro h; simp [handleMistakeEvent, h]
  · intro audio hmode hsome hlen
    simp [handleMistakeEvent, hmode, hsome, hlen]
  · intro audio hplay
    cases hmode : s.feedbackMode with
    | highlight => simp [handleMistakeEvent, hmode] at hplay
    | beep => simp [handleMistakeEvent, hmode] at hplay
    | spoken =>
      cases hsome : msg.correction_audio_base64 with
      | none => simp [handleMistakeEvent, hmode, hsome] at hplay
      | some a =>
        by_cases hlen : a.length > 0
        · simp [handleMistakeEvent, hmode, hsome, hlen] at hplay
          subst hplay
          exact ⟨rfl, rfl⟩
        · simp [handleMistakeEvent, hmode, hsome, hlen] at hplay

/-- Witness for C5 at a concrete state, message, fresh id and clock. -/
theorem mistakeEvent_prepends_witness :
    (handleMistakeEvent sampleMistakeMsg "C" 200 sampleAppState).1.mistakeQueue
      = newMistakeOf sampleMistakeMsg "C" 200 sampleAppState
          :: sampleAppState.mistakeQueue :=
  (mistakeEvent_prepends_pending_and_feedback sampleAppState sampleMistakeMsg
    "C" 200 (by decide)).1

/-- C6: the playback controller keeps at most one live source at every
instant of the operation sequence `playSpokenCorrection` performs; with a
source active, the sequence starts by stopping and disconnecting it before
any new source is created, the new source (on successful decode) ends up the
only live one, and on decode failure the controller is left cleared. -/
theorem playSpokenCorrection_single_source (cur : Option Nat) (playing : Bool)
    (audioPresent decodeOk : Bool) (newId : Nat) :
    (∀ k : Nat,
      (runPlayActions cur.toList
        ((playSpokenCorrection audioPresent decodeOk newId
            { currentSource := cur, isPlaying := playing }).2.take k)).length
        ≤ 1) ∧
    (∀ old : Nat, cur = some old → audioPresent = true →
      (playSpokenCorrection audioPresent decodeOk newId
          { currentSource := cur, isPlaying := playing }).2.take 2
        = [PlayAction.stopSource old, PlayAction.disconnectSource old]) ∧
    (∀ old : Nat, cur = some old → audioPresent = true → decodeOk = true →
      (playSpokenCorrection audioPresent decodeOk newId
          { currentSource := cur, isPlaying := playing }).2
        = [PlayAction.stopSource old, PlayAction.disconnectSource old,
           PlayAction.startSource newId] ∧
      (playSpokenCorrection audioPresent decodeOk newId
          { currentSource := cur, isPlaying := playing }).1.currentSource
        = some newId ∧
      runPlayActions [old]
        (playSpokenCorrection audioPresent decodeOk newId
          { currentSource := cur, isPlaying := playing }).2 = [newId]) ∧
    (∀ old : Nat, cur = some old → audioPresent = true → decodeOk = false →
      (playSpokenCorrection audioPresent decodeOk newId
          { currentSource := cur, isPlaying := playing }).1.currentSource
        = none ∧
      (playSpokenCorrection audioPresent decodeOk newId
          { currentSource := cur, isPlaying := playing }).1.isPlaying
        = false) := by
  refine ⟨fun k => ?_, fun old hc ha => ?_, fun old hc ha hd => ?_,
    fun old hc ha hd => ?_⟩
  · rcases cur with _ | old <;> cases audioPresent <;> cases decodeOk <;>
      rcases k with _ | _ | _ | k <;>
      simp [playSpokenCorrection, runPlayActions, applyPlayAction,
        Option.toList, List.take]
  · subst hc ha
    cases decodeOk <;> rfl
  · subst hc ha hd
    refine ⟨rfl, rfl, ?_⟩
    simp [playSpokenCorrection, runPlayActions, applyPlayAction]
  · subst hc ha hd
    exact ⟨rfl, rfl⟩

/-- Witness for C6: starting a new clip (source 2) while source 1 plays. -/
theorem playSpokenCorrection_single_source_witness :
    (playSpokenCorrection true true 2
        { currentSource := some 1, isPlaying := true }).2
      = [PlayAction.stopSource 1, PlayAction.disconnectSource 1,
         PlayAction.startSource 2] :=
  ((playSpokenCorrection_single_source (some 1) true true true 2).2.2.1
    1 rfl rfl rfl).1

/-- C7: the sync operation selects exactly the records whose sync flag is
`false`; when there are none it issues no request and schedules no queue
update; otherwise the request body is those records with the sync flag field
stripped (all other fields kept); and on a failed response no queue update
is performed, leaving every record as it was. -/
theorem syncMistakes_selects_unsynced_and_fails_safe (q : List Mistake)
    (ok : Bool) :
    (∀ m : Mistake, m ∈ unsyncedOf q ↔ m ∈ q ∧ m.synced = false) ∧
    (unsyncedOf q = [] → syncMistakes q ok = (none, none)) ∧
    (unsyncedOf q ≠ [] → (syncMistakes q ok).1
        = some { mistakes := (unsyncedOf q).map stripSynced }) ∧
    (ok = false → ∀ qResp : List Mistake,
        applySyncUpdate (syncMistakes q ok).2 qResp = qResp) ∧
    (∀ m : Mistake,
      (stripSynced m).id = m.id ∧ (stripSynced m).sura = m.sura ∧
      (stripSynced m).aya = m.aya ∧
      (stripSynced m).transcription_segment = m.transcription_segment ∧
      (stripSynced m).reference_segment = m.reference_segment ∧
      (stripSynced m).mistake_type = m.mistake_type ∧
      (stripSynced m).timestamp = m.timestamp ∧
      (stripSynced m).verified = m.verified) := by
  refine ⟨fun m => ?_, fun h => ?_, fun h => ?_, fun hok qResp => ?_,
    fun m => ⟨rfl, rfl, rfl, rfl, rfl, rfl, rfl, rfl⟩⟩
  · simp [unsyncedOf, List.mem_filter]
  · simp [syncMistakes, h]
  · have hne : ((unsyncedOf q).isEmpty = false) := by
      cases he : (unsyncedOf q).isEmpty
      · rfl
      · exact absurd (List.isEmpty_iff.mp he) h
    cases ok <;> simp [syncMistakes, hne]
  · subst hok
    by_cases he : (unsyncedOf q).isEmpty <;>
      simp [syncMistakes, he, applySyncUpdate]

/-- C9: with a file selected, a non-success upload response reports the
failure, appends nothing to the durable upload log and keeps the selection
for retry; only a success response prepends the audit record (newest-first)
and clears the selection. -/
theorem uploadTraining_failure_preserves_state (s : UploadState)
    (f : AudioFile) (freshId : String) (now : Nat)
    (hsel : s.recordedAudioFile = some f) :
    ((uploadInitialTrainingAudio false freshId now s).statusMessage
       = "Failed to upload initial training audio.") ∧
    ((uploadInitialTrainingAudio false freshId now s).trainingUploads
       = s.trainingUploads) ∧
    ((uploadInitialTrainingAudio false freshId now s).recordedAudioFile
       = some f) ∧
    ((uploadInitialTrainingAudio true freshId now s).trainingUploads
       = { id := freshId, fileName := f.name,
           type := "initial_recitation_upload", timestamp := now,
           fileSize := f.size, fileType := f.type } :: s.trainingUploads) ∧
    ((uploadInitialTrainingAudio true freshId now s).recordedAudioFile
       = none) ∧
    ((uploadInitialTrainingAudio true freshId now s).statusMessage
       = "File '" ++ f.name ++ "' uploaded successfully for initial training.")
    := by
  simp [uploadInitialTrainingAudio, hsel]

/-- Witness for C9 at a concrete selected file and empty upload log. -/
theorem uploadTraining_failure_witness :
    (uploadInitialTrainingAudio false "u1" 7 sampleUploadState).trainingUploads
      = sampleUploadState.trainingUploads :=
  (uploadTraining_failure_preserves_state sampleUploadState sampleAudioFile
    "u1" 7 rfl).2.1

/-- C1 (amended): the success handler marks synced exactly the ids captured
in the pre-request unsynced set — every response-time record whose id is in
the captured set is returned with `synced := true` (other fields kept), and
every record whose id is not (in particular any record added during the
in-flight request under a fresh id) is returned unchanged — even if a
captured record's flag was reset to `false` while the request was in
flight. -/
theorem syncSuccess_marks_exactly_captured_ids (qCapture qResp : List Mistake)
    (hne : unsyncedOf qCapture ≠ []) :
    ((syncMistakes qCapture true).2
       = some ((unsyncedOf qCapture).map Mistake.id)) ∧
    ((markSubmittedSynced ((unsyncedOf qCapture).map Mistake.id) qResp).length
       = qResp.length) ∧
    (∀ i : Nat, ∀ m : Mistake, qResp[i]? = some m →
      ((((unsyncedOf qCapture).map Mistake.id).contains m.id = true →
         (markSubmittedSynced ((unsyncedOf qCapture).map Mistake.id) qResp)[i]?
           = some { m with synced := true }) ∧
       (((unsyncedOf qCapture).map Mistake.id).contains m.id = false →
         (markSubmittedSynced ((unsyncedOf qCapture).map Mistake.id) qResp)[i]?
           = some m))) := by
  have hne' : ((unsyncedOf qCapture).isEmpty = false) := by
    cases he : (unsyncedOf qCapture).isEmpty
    · rfl
    · exact absurd (List.isEmpty_iff.mp he) hne
  refine ⟨by simp [syncMistakes, hne'], by simp [markSubmittedSynced],
    fun i m hm => ?_⟩
  have hres : (markSubmittedSynced ((unsyncedOf qCapture).map Mistake.id)
        qResp)[i]?
      = some (if ((unsyncedOf qCapture).map Mistake.id).contains m.id
              then { m with synced := true } else m) := by
    simp only [markSubmittedSynced, List.getElem?_map, hm, Option.map_some']
  constructor
  · intro hc
    rw [hres, if_pos hc]
  · intro hc
    rw [hres, if_neg (by rw [hc]; exact Bool.false_ne_true)]

/-- Witness for C1 at a concrete one-record queue. -/
theorem syncSuccess_marks_captured_witness :
    (syncMistakes [sampleMistake] true).2
      = some ((unsyncedOf [sampleMistake]).map Mistake.id) :=
  (syncSuccess_marks_exactly_captured_ids [sampleMistake] [] (by decide)).1

/-- C1 counterexample: record "A" is captured in the submitted set; its sync
flag is reset to `false` by user verification while the request is in
flight; the success handler nevertheless marks it `synced := true`, contrary
to the claim that such a record is not marked synced by that attempt. -/
theorem syncSuccess_overwrites_midflight_reset_cex :
    ((handleMistakeVerification "A" VerifyStatus.incorrect
        sampleAppState).mistakeQueue.map Mistake.synced = [false]) ∧
    ((syncMistakes sampleAppState.mistakeQueue true).2 = some ["A"]) ∧
    ((applySyncUpdate (syncMistakes sampleAppState.mistakeQueue true).2
        ((handleMistakeVerification "A" VerifyStatus.incorrect
          sampleAppState).mistakeQueue)).map Mistake.synced = [true]) := by
  decide

/-- C2 (code defect): after a successful start, `stopListening` releases the
microphone stream, the recorder, the channel, the animation-frame poll, the
silence timeout and the playback source — but the 500ms audio-flush interval
started by `startListening` is still active, because the `clearInterval`
closure `startListening` returns is discarded by its caller and
`stopListening` has no reference to the interval id. -/
theorem stopListening_leaks_flush_interval :
    ((startListening true idleResources).flushIntervalActive = true) ∧
    ((stopListening (startListening true idleResources)).flushIntervalActive
       = true) ∧
    ((stopListening (startListening true idleResources)).channelOpen = false) ∧
    ((stopListening (startListening true idleResources)).micStreamHeld
       = false) ∧
    ((stopListening (startListening true idleResources)).animFramePollActive
       = false) ∧
    ((stopListening (startListening true idleResources)).recorderActive
       = false) ∧
    ((stopListening (startListening true idleResources)).silenceTimeoutPending
       = false) ∧
    ((stopListening (startListening true idleResources)).playbackSourceActive
       = false) ∧
    ((stopListening (startListening true idleResources)).isListening
       = false) := by
  decide

end QuranAnalyzer
